import Mathlib

/-!
Shallow embedding of the string-literal lexer in
`src/boa/src/syntax/lexer/string.rs`, together with theorems settling the
frozen claims about it.

Characters of the source text are Lean `Char` (Unicode scalar values, the
same value set as Rust `char`).  The decoded buffer is a `List Nat` of
Unicode scalar values.  Panics in the Rust code (`expect`, `unreachable!`)
are modelled by an explicit `Res.panic` outcome.  The lexer's loops are
written with an explicit fuel parameter; the entry point supplies
`input length + 1`, which suffices because every loop iteration consumes at
least one character of input.
-/

namespace Boa

/-- Modelled from the spec: a source position, 1-based line and column
(`Position` itself lives outside `src/`; the spec fixes only that it is a
(line, column) pair with both components at least 1, advancing monotonically
as the cursor consumes input). -/
structure Position where
  line : Nat
  column : Nat
deriving DecidableEq, Repr

/-- Modelled from the spec: advancing a position over one consumed character.
A line feed moves to the start of the next line; any other character moves one
column to the right. -/
def Position.advance (p : Position) (c : Char) : Position :=
  if c = '\n' then ⟨p.line + 1, 1⟩ else ⟨p.line, p.column + 1⟩

/-- Modelled from the spec: the forward-only character cursor (the `Cursor`
type lives outside `src/`).  It is a remaining character stream together with
the position of the next character to be read.  I/O errors of the underlying
reader are not modelled (no claim concerns them). -/
structure Cursor where
  inp : List Char
  pos : Position
deriving DecidableEq, Repr

/-- Modelled from the spec: `next()` consumes and returns the next character,
or nothing at end of input, advancing the position. -/
def Cursor.next? (cur : Cursor) : Option (Char × Cursor) :=
  match cur.inp with
  | [] => none
  | c :: rest => some (c, ⟨rest, cur.pos.advance c⟩)

/-- Modelled from the spec: `next_is(c)` peeks; if the next character equals
the argument it consumes it and returns true, else it returns false without
consuming.  At end of input it returns false. -/
def Cursor.nextIs (cur : Cursor) (c : Char) : Bool × Cursor :=
  match cur.inp with
  | [] => (false, cur)
  | c' :: rest => if c' = c then (true, ⟨rest, cur.pos.advance c'⟩) else (false, cur)

/-- Helper for `Cursor.takeUntil`: walks the character list, advancing the
position, until the terminator is found. -/
def takeUntilAux (t : Char) : List Char → Position → Option (List Char × Cursor)
  | [], _ => none
  | c :: rest, p =>
    if c = t then some ([], ⟨rest, Position.advance p c⟩)
    else
      match takeUntilAux t rest (Position.advance p c) with
      | none => none
      | some (cs, cur') => some (c :: cs, cur')

/-- Modelled from the spec: `take_until(t, out)` consumes and collects
characters until the terminator `t` is found (the terminator is consumed but
not collected); it fails (end-of-input error) if the stream ends first. -/
def Cursor.takeUntil (cur : Cursor) (t : Char) : Option (List Char × Cursor) :=
  takeUntilAux t cur.inp cur.pos

/-- Modelled from the spec: `fill_bytes` on a 4-byte buffer consumes exactly 4
characters; it fails if the stream ends first.  The ASCII assertion the spec
mentions is modelled at the use site (see `collectUnits`), mirroring the
`str::from_utf8(..).expect(..)` call in the source. -/
def Cursor.fillBytes4 (cur : Cursor) : Option (Char × Char × Char × Char × Cursor) :=
  match cur.inp with
  | c1 :: c2 :: c3 :: c4 :: rest =>
    some (c1, c2, c3, c4,
      ⟨rest, ((((cur.pos.advance c1).advance c2).advance c3).advance c4)⟩)
  | _ => none

/-- Modelled from the spec: the error model.  `unexpectedEof` is
`UnexpectedEndOfInput(context)`; `synErr` is a syntax error.  The source
constructs its syntax errors via `Error::syntax(message)`, which receives only
a message string, so the model carries only the message. -/
inductive LexErr where
  | unexpectedEof (context : String)
  | synErr (message : String)
deriving DecidableEq, Repr

/-- Outcome of a (possibly panicking) computation: a value, a lexer error, a
process-aborting panic with its message, or fuel exhaustion (never reached
from the entry point, which supplies sufficient fuel). -/
inductive Res (α : Type) where
  | ok (val : α)
  | err (e : LexErr)
  | panic (msg : String)
  | outOfFuel
deriving DecidableEq, Repr

/-- Map the value of a `Res`, preserving errors and panics.  Used only to
state theorems that do not care about the final cursor. -/
def Res.mapVal (f : α → β) : Res α → Res β
  | .ok a => .ok (f a)
  | .err e => .err e
  | .panic m => .panic m
  | .outOfFuel => .outOfFuel

/-- A token: the decoded string content (a sequence of Unicode scalar values)
and its source span, as built at the end of `StringLiteral.lex`. -/
structure Token where
  content : List Nat
  spanStart : Position
  spanEnd : Position
deriving DecidableEq, Repr

/-- The decoded content of a successful lex outcome. -/
def Res.contents? : Res Token → Option (List Nat)
  | .ok t => some t.content
  | _ => none

/-- The value of one hexadecimal digit character, as Rust's
`char::to_digit(16)` accepts them: `0`-`9`, `a`-`f`, `A`-`F`. -/
def hexDigit? (c : Char) : Option Nat :=
  if 48 ≤ c.toNat ∧ c.toNat ≤ 57 then some (c.toNat - 48)
  else if 97 ≤ c.toNat ∧ c.toNat ≤ 102 then some (c.toNat - 87)
  else if 65 ≤ c.toNat ∧ c.toNat ≤ 70 then some (c.toNat - 55)
  else none

/-- Accumulate the base-16 value of a digit run; fails on the first
non-digit. -/
def hexFold : List Char → Nat → Option Nat
  | [], acc => some acc
  | c :: rest, acc =>
    match hexDigit? c with
    | none => none
    | some d => hexFold rest (acc * 16 + d)

/-- Strip one optional leading `+` sign, as Rust's `from_str_radix` allows
for unsigned integers. -/
def stripPlus (cs : List Char) : List Char :=
  match cs with
  | c :: rest => if c = '+' then rest else cs
  | [] => cs

/-- Model of Rust `uN::from_str_radix(s, 16)` for the unsigned integer type of
`width` bits: an optional leading `+` sign followed by a nonempty run of hex
digits; fails on an empty digit run, on any non-digit, and on overflow past
the type's maximum. -/
def fromStrRadix16? (width : Nat) (cs : List Char) : Option Nat :=
  let digits := stripPlus cs
  if digits.isEmpty then none
  else
    match hexFold digits 0 with
    | none => none
    | some v => if v < 2 ^ width then some v else none

/-- The value of one bare `\uHHHH` group: `u16::from_str_radix` of the four
characters, with a failed parse coerced to 0 (the `Err(_) => 0` arm in the
source). -/
def bareUnit (c1 c2 c3 c4 : Char) : Nat :=
  match fromStrRadix16? 16 [c1, c2, c3, c4] with
  | some v => v
  | none => 0

/-- The first item of Rust's `decode_utf16` over a list of 16-bit code units:
nothing on an empty list; a scalar for a non-surrogate unit or a
high-surrogate/low-surrogate pair; an unpaired-surrogate error (`.error u`)
otherwise. -/
def decodeUtf16First : List Nat → Option (Except Nat Nat)
  | [] => none
  | u :: rest =>
    if u < 0xD800 ∨ 0xE000 ≤ u then some (.ok u)
    else if u < 0xDC00 then
      match rest with
      | v :: _ =>
        if 0xDC00 ≤ v ∧ v < 0xE000 then
          some (.ok (0x10000 + (u - 0xD800) * 0x400 + (v - 0xDC00)))
        else some (.error u)
      | [] => some (.error u)
    else some (.error u)

/-- The bare-`\u` accumulation loop of `StringLiteral::lex` (lines 129-152 of
`string.rs`): read 4 characters with `fill_bytes`, check they are valid ASCII
(the `str::from_utf8(..).expect(..)` call), parse them with failed parses
coerced to 0, push the code unit, and continue exactly when `next_is('\\')`
and then `next_is('u')` both succeed — note that a successful `next_is('\\')`
consumes the backslash even when the following `next_is('u')` fails. -/
def collectUnits (fuel : Nat) (acc : List Nat) (cur : Cursor) : Res (List Nat × Cursor) :=
  match fuel with
  | 0 => .outOfFuel
  | fuel + 1 =>
    match cur.fillBytes4 with
    | none => .err (.unexpectedEof "failed to fill whole buffer")
    | some (c1, c2, c3, c4, cur1) =>
      if c1.toNat < 128 ∧ c2.toNat < 128 ∧ c3.toNat < 128 ∧ c4.toNat < 128 then
        match cur1.nextIs '\\' with
        | (true, cur2) =>
          match cur2.nextIs 'u' with
          | (true, cur3) => collectUnits fuel (acc ++ [bareUnit c1 c2 c3 c4]) cur3
          | (false, cur3) => .ok (acc ++ [bareUnit c1 c2 c3 c4], cur3)
        | (false, cur2) => .ok (acc ++ [bareUnit c1 c2 c3 c4], cur2)
      else .panic "the cursor returned invalid UTF-8"

/-- Terminator for the string, as in `string.rs`. -/
inductive StringTerminator where
  | singleQuote
  | doubleQuote
deriving DecidableEq, Repr

/-- `StringLiteral::new` (lines 21-29 of `string.rs`): fixes the terminator
from the initializer character; any other initializer hits `unreachable!()`,
which aborts with Rust's standard unreachable-code panic message. -/
def StringLiteral.new (init : Char) : Res StringTerminator :=
  if init = '\'' then .ok .singleQuote
  else if init = '"' then .ok .doubleQuote
  else .panic "internal error: entered unreachable code"

/-- Decoding of one escapee character (the big `match escape` of
`StringLiteral::lex`, lines 69-174 of `string.rs`), given the position
recorded before the backslash was read (`next_chr_start`) and the cursor
positioned just after the escapee.  Returns the scalar value to append and
the cursor after the escape body. -/
def lexEscape (fuel : Nat) (nextChrStart : Position) (escape : Char) (cur : Cursor) :
    Res (Nat × Cursor) :=
  match escape with
  | 'n' => .ok (10, cur)
  | 'r' => .ok (13, cur)
  | 't' => .ok (9, cur)
  | 'b' => .ok (8, cur)
  | 'f' => .ok (12, cur)
  | '0' => .ok (0, cur)
  | 'x' =>
    match cur.next? with
    | none => .err (.unexpectedEof "unterminated escape sequence in string literal")
    | some (c1, cur1) =>
      match cur1.next? with
      | none => .err (.unexpectedEof "unterminated escape sequence in string literal")
      | some (c2, cur2) =>
        let asNum : Nat :=
          match fromStrRadix16? 64 [c1, c2] with
          | some v => v
          | none => 0
        let asU32 : Nat := asNum % 4294967296
        if asU32 < 55296 ∨ (57344 ≤ asU32 ∧ asU32 ≤ 1114111) then .ok (asU32, cur2)
        else
          .err (.synErr (toString cur2.pos.line ++ ":" ++ toString cur2.pos.column ++
            ": " ++ toString asNum ++ " is not a valid Unicode scalar value"))
  | 'u' =>
    match cur.nextIs '{' with
    | (true, cur1) =>
      match cur1.takeUntil '}' with
      | none => .err (.unexpectedEof "unexpected end of input")
      | some (codePoint, cur2) =>
        match fromStrRadix16? 32 codePoint with
        | none => .err (.synErr "malformed Unicode character escape sequence")
        | some asNum =>
          if asNum > 1114111 then
            .err (.synErr
              "Unicode codepoint must not be greater than 0x10FFFF in escape sequence")
          else if 55296 ≤ asNum ∧ asNum ≤ 57343 then
            .err (.synErr "invalid Unicode escape sequence")
          else .ok (asNum, cur2)
    | (false, cur1) =>
      match collectUnits fuel [] cur1 with
      | .ok (codepoints, cur2) =>
        match decodeUtf16First codepoints with
        | some (.ok scalar) => .ok (scalar, cur2)
        | some (.error _) => .panic "Could not get next codepoint"
        | none => .panic "Could not get next codepoint"
      | .err e => .err e
      | .panic m => .panic m
      | .outOfFuel => .outOfFuel
  | '\'' => .ok (39, cur)
  | '"' => .ok (34, cur)
  | '\\' => .ok (92, cur)
  | ch =>
    .err (.synErr ("invalid escape sequence `" ++ toString nextChrStart.line ++
      "` at line " ++ toString nextChrStart.column ++ ", column " ++ String.singleton ch))

/-- The main scanning loop of `StringLiteral::lex` (lines 45-180 of
`string.rs`): record the next character's position, read it; stop on the
matching terminator; on a backslash read the escapee (a line feed contributes
nothing, anything else goes through `lexEscape`); append any other character
verbatim. -/
def lexLoop (fuel : Nat) (term : StringTerminator) (buf : List Nat) (cur : Cursor) :
    Res (List Nat × Cursor) :=
  match fuel with
  | 0 => .outOfFuel
  | fuel + 1 =>
    let nextChrStart := cur.pos
    match cur.next? with
    | none => .err (.unexpectedEof "unterminated string literal")
    | some (nextChr, cur1) =>
      if nextChr = '\'' ∧ term = StringTerminator.singleQuote then .ok (buf, cur1)
      else if nextChr = '"' ∧ term = StringTerminator.doubleQuote then .ok (buf, cur1)
      else if nextChr = '\\' then
        match cur1.next? with
        | none => .err (.unexpectedEof "unterminated escape sequence in string literal")
        | some (escape, cur2) =>
          if escape = '\n' then lexLoop fuel term buf cur2
          else
            match lexEscape fuel nextChrStart escape cur2 with
            | .ok (v, cur3) => lexLoop fuel term (buf ++ [v]) cur3
            | .err e => .err e
            | .panic m => .panic m
            | .outOfFuel => .outOfFuel
      else lexLoop fuel term (buf ++ [nextChr.toNat]) cur1

/-- `StringLiteral::lex` (lines 40-186 of `string.rs`): run the scanning loop
(with sufficient fuel: every iteration consumes at least one character) and on
success build the token with its span. -/
def StringLiteral.lex (term : StringTerminator) (startPos : Position) (cur : Cursor) :
    Res Token :=
  match lexLoop (cur.inp.length + 1) term [] cur with
  | .ok (buf, cur1) => .ok ⟨buf, startPos, cur1.pos⟩
  | .err e => .err e
  | .panic m => .panic m
  | .outOfFuel => .outOfFuel

/-- One uppercase hexadecimal digit character, used only to state the
round-trip claim about surrogate pairs (rendering a code unit back into the
source text of a bare escape). -/
def toHexDigit : Nat → Char
  | 0 => '0' | 1 => '1' | 2 => '2' | 3 => '3'
  | 4 => '4' | 5 => '5' | 6 => '6' | 7 => '7'
  | 8 => '8' | 9 => '9' | 10 => 'A' | 11 => 'B'
  | 12 => 'C' | 13 => 'D' | 14 => 'E' | 15 => 'F'
  | _ => '0'

/-- The four uppercase hex digits of a 16-bit value, most significant
first. -/
def toHex4 (n : Nat) : List Char :=
  [toHexDigit (n / 4096 % 16), toHexDigit (n / 256 % 16),
   toHexDigit (n / 16 % 16), toHexDigit (n % 16)]

/-- Claim C1: the claim states that a bare `\u` escape accumulating an
unpaired surrogate yields a recoverable outcome and never aborts the caller's
process.  The code instead panics: on the input `'\uD800'` (a lone high
surrogate followed by the terminator), `decode_utf16(..).next().expect(..)`
hits the `Err` case and aborts with the expect message.  This theorem
evaluates the code at that failing input. -/
theorem claim1_lone_surrogate_aborts :
    StringLiteral.lex .singleQuote ⟨1, 1⟩
      ⟨['\\', 'u', 'D', '8', '0', '0', '\''], ⟨1, 2⟩⟩ =
      .panic "Could not get next codepoint" := by decide

/-- Claim C2: the claim states that an unrecognized escapee produces a
SyntaxError naming the offending character and reporting the backslash's line
and column.  The code's `format!` call passes its arguments in the wrong
order (line number, column number, character), so for `'\q'` with the
backslash at line 1, column 2, the message reads
"invalid escape sequence \x60 1 \x60 at line 2, column q" instead of the intended
"invalid escape sequence \x60 q \x60 at line 1, column 2".  This theorem evaluates
the code at that failing input and records that the two messages differ. -/
theorem claim2_invalid_escape_message_garbled :
    StringLiteral.lex .singleQuote ⟨1, 1⟩ ⟨['\\', 'q', '\''], ⟨1, 2⟩⟩ =
      .err (.synErr "invalid escape sequence `1` at line 2, column q") ∧
    "invalid escape sequence `1` at line 2, column q" ≠
      "invalid escape sequence `q` at line 1, column 2" :=
  ⟨by decide, by decide⟩

/-- Claim C7: a backslash immediately followed by a literal line feed
contributes nothing to the decoded buffer, from any scanning state (any
buffer, any remaining input, any position); concretely, `'a\<LF>b'` decodes
to exactly "ab" (scalar values 97, 98). -/
theorem claim7_line_continuation :
    (∀ (fuel : Nat) (term : StringTerminator) (buf : List Nat)
        (rest : List Char) (p : Position),
      lexLoop (fuel + 1) term buf ⟨'\\' :: '\n' :: rest, p⟩ =
        lexLoop fuel term buf ⟨rest, ⟨p.line + 1, 1⟩⟩) ∧
    (StringLiteral.lex .singleQuote ⟨1, 1⟩
      ⟨['a', '\\', '\n', 'b', '\''], ⟨1, 2⟩⟩).contents? = some [97, 98] := by
  refine ⟨fun fuel term buf rest p => ?_, by decide⟩
  rfl

/-- Counterexample to claim C8 as stated: the claim asserts the context is
"unterminated string literal" for every input ending before the terminator,
except "unterminated escape sequence in string literal" when the end occurs
immediately after a backslash.  But on `'\x4` the input ends two characters
past the backslash — not immediately after it — and the code (the `\x` digit
reads at lines 79-87 of `string.rs`) still fails with "unterminated escape
sequence in string literal", not "unterminated string literal". -/
theorem claim8_counterexample_mid_escape_eof :
    StringLiteral.lex .singleQuote ⟨1, 1⟩ ⟨['\\', 'x', '4'], ⟨1, 2⟩⟩ =
      .err (.unexpectedEof "unterminated escape sequence in string literal") ∧
    StringLiteral.lex .singleQuote ⟨1, 1⟩ ⟨['\\', 'x', '4'], ⟨1, 2⟩⟩ ≠
      .err (.unexpectedEof "unterminated string literal") :=
  ⟨by decide, by decide⟩

/-- Claim C8 as amended: when lexing reaches end of input the attempt fails
with `UnexpectedEndOfInput` and no partial token is produced, but the context
depends on where the end occurs: "unterminated string literal" at the
scanning-loop head (from any state: any buffer, any position);
"unterminated escape sequence in string literal" immediately after a
backslash and also inside the two-character read of an `\x` escape (whether
zero or one digit characters remain); end of input inside a bare `\u`
4-digit group or inside the `\u{...}` body also fails with
`UnexpectedEndOfInput`, with the contexts of `fill_bytes` and `take_until`
(whose exact texts the spec does not fix); an error outcome never coexists
with a token; and concretely `'abc` (no closing quote) fails with
"unterminated string literal". -/
theorem claim8_amended_eof_contexts :
    (∀ (fuel : Nat) (term : StringTerminator) (buf : List Nat) (p : Position),
      lexLoop (fuel + 1) term buf ⟨[], p⟩ =
        .err (.unexpectedEof "unterminated string literal")) ∧
    (∀ (fuel : Nat) (term : StringTerminator) (buf : List Nat) (p : Position),
      lexLoop (fuel + 1) term buf ⟨['\\'], p⟩ =
        .err (.unexpectedEof "unterminated escape sequence in string literal")) ∧
    (∀ (fuel : Nat) (st p : Position),
      lexEscape fuel st 'x' ⟨[], p⟩ =
        .err (.unexpectedEof "unterminated escape sequence in string literal")) ∧
    (∀ (fuel : Nat) (st p : Position) (c : Char),
      lexEscape fuel st 'x' ⟨[c], p⟩ =
        .err (.unexpectedEof "unterminated escape sequence in string literal")) ∧
    (∀ (fuel : Nat) (st p : Position),
      ∃ ctx, lexEscape (fuel + 1) st 'u' ⟨['D', '8'], p⟩ = .err (.unexpectedEof ctx)) ∧
    (∀ (fuel : Nat) (st p : Position),
      ∃ ctx, lexEscape fuel st 'u' ⟨['\x7b', '1'], p⟩ = .err (.unexpectedEof ctx)) ∧
    (∀ (term : StringTerminator) (startPos : Position) (cur : Cursor)
        (e : LexErr) (t : Token),
      StringLiteral.lex term startPos cur = .err e →
        StringLiteral.lex term startPos cur ≠ .ok t) ∧
    StringLiteral.lex .singleQuote ⟨1, 1⟩ ⟨['a', 'b', 'c'], ⟨1, 2⟩⟩ =
      .err (.unexpectedEof "unterminated string literal") := by
  refine ⟨fun fuel term buf p => rfl, fun fuel term buf p => rfl,
    fun fuel st p => rfl, fun fuel st p c => rfl,
    fun fuel st p => ⟨_, rfl⟩, fun fuel st p => ⟨_, rfl⟩, ?_, by decide⟩
  intro term startPos cur e t he hok
  rw [he] at hok
  exact Res.noConfusion hok

/-- Witness for claim C8 (amended): the error/no-token component applied at a
concrete input. -/
theorem claim8_amended_eof_contexts_witness :
    StringLiteral.lex .singleQuote ⟨1, 1⟩ ⟨[], ⟨1, 2⟩⟩ ≠
      .ok ⟨[], ⟨1, 1⟩, ⟨1, 2⟩⟩ :=
  claim8_amended_eof_contexts.2.2.2.2.2.2.1 .singleQuote ⟨1, 1⟩ ⟨[], ⟨1, 2⟩⟩
    (.unexpectedEof "unterminated string literal") ⟨[], ⟨1, 1⟩, ⟨1, 2⟩⟩ (by decide)

/-- Claim C10: constructing the lexer from `'` fixes the single-quote
terminator, from `"` the double-quote terminator, and any other initializer
hits `unreachable!()`, an unreachable-code panic. -/
theorem claim10_new_fixes_terminator :
    StringLiteral.new '\'' = .ok .singleQuote ∧
    StringLiteral.new '"' = .ok .doubleQuote ∧
    ∀ (c : Char), c ≠ '\'' → c ≠ '"' →
      StringLiteral.new c = .panic "internal error: entered unreachable code" := by
  refine ⟨by decide, by decide, ?_⟩
  intro c h1 h2
  simp [StringLiteral.new, h1, h2]

/-- Witness for claim C10: the panic component applied at the concrete
initializer `a`. -/
theorem claim10_new_fixes_terminator_witness :
    StringLiteral.new 'a' = .panic "internal error: entered unreachable code" :=
  claim10_new_fixes_terminator.2.2 'a' (by decide) (by decide)

/-- A hex digit contributes a value of at most 15. -/
theorem hexDigit?_le {c : Char} {d : Nat} (h : hexDigit? c = some d) : d ≤ 15 := by
  unfold hexDigit? at h
  split_ifs at h with h1 h2 h3 <;> simp_all <;> omega

/-- The value accumulated by `hexFold` is bounded by the number of digits
consumed. -/
theorem hexFold_lt : ∀ (cs : List Char) (acc v : Nat),
    hexFold cs acc = some v → v < (acc + 1) * 16 ^ cs.length := by
  intro cs
  induction cs with
  | nil =>
    intro acc v h
    simp only [hexFold, Option.some.injEq] at h
    subst h
    simp only [List.length_nil, pow_zero, mul_one]
    omega
  | cons c cs ih =>
    intro acc v h
    simp only [hexFold] at h
    cases hd : hexDigit? c with
    | none => rw [hd] at h; exact absurd h (by simp)
    | some d =>
      rw [hd] at h
      have hb := ih (acc * 16 + d) v h
      have hdle := hexDigit?_le hd
      have hstep : (acc * 16 + d + 1) * 16 ^ cs.length ≤ (acc + 1) * 16 ^ (cs.length + 1) := by
        rw [pow_succ]
        calc (acc * 16 + d + 1) * 16 ^ cs.length
            ≤ ((acc + 1) * 16) * 16 ^ cs.length := by
              apply Nat.mul_le_mul_right
              omega
          _ = (acc + 1) * (16 ^ cs.length * 16) := by ring
      calc v < (acc * 16 + d + 1) * 16 ^ cs.length := hb
        _ ≤ (acc + 1) * 16 ^ (cs.length + 1) := hstep
        _ = (acc + 1) * 16 ^ (c :: cs).length := by simp

/-- Parsing two characters in base 16 yields at most 255 (at most 15 when the
first character is the `+` sign). -/
theorem fromStrRadix16?_pair_le {w : Nat} {c1 c2 : Char} {v : Nat}
    (h : fromStrRadix16? w [c1, c2] = some v) : v ≤ 255 := by
  rw [fromStrRadix16?] at h
  by_cases hp : c1 = '+'
  · rw [show stripPlus [c1, c2] = [c2] by simp [stripPlus, hp]] at h
    simp only [List.isEmpty_cons, if_false, Bool.false_eq_true] at h
    cases hf : hexFold [c2] 0 with
    | none => simp [hf] at h
    | some u =>
      have hu : u < 16 := by simpa using hexFold_lt [c2] 0 u hf
      simp only [hf] at h
      split_ifs at h
      · simp at h; omega
  · rw [show stripPlus [c1, c2] = [c1, c2] by simp [stripPlus, hp]] at h
    simp only [List.isEmpty_cons, if_false, Bool.false_eq_true] at h
    cases hf : hexFold [c1, c2] 0 with
    | none => simp [hf] at h
    | some u =>
      have hu : u < 256 := by
        have := hexFold_lt [c1, c2] 0 u hf
        norm_num at this
        exact this
      simp only [hf] at h
      split_ifs at h
      · simp at h; omega

/-- Claim C9: once its two characters are read, the `\x` escape always
succeeds — a two-character base-16 parse yields at most 255 (a failed parse
is coerced to 0), every such value survives the `as u32` cast unchanged and
is a valid Unicode scalar, so the "is not a valid Unicode scalar value"
branch is unreachable. -/
theorem claim9_x_escape_always_ok :
    ∀ (fuel : Nat) (st : Position) (c1 c2 : Char) (rest : List Char) (p : Position),
      ∃ (v : Nat) (cur' : Cursor),
        lexEscape fuel st 'x' ⟨c1 :: c2 :: rest, p⟩ = .ok (v, cur') ∧ v ≤ 255 := by
  intro fuel st c1 c2 rest p
  cases hp : fromStrRadix16? 64 [c1, c2] with
  | none =>
    refine ⟨0, ⟨rest, (p.advance c1).advance c2⟩, ?_, by omega⟩
    simp [lexEscape, Cursor.next?, hp]
  | some v =>
    have hv := fromStrRadix16?_pair_le hp
    have hmod : v % 4294967296 = v := Nat.mod_eq_of_lt (by omega)
    refine ⟨v, ⟨rest, (p.advance c1).advance c2⟩, ?_, hv⟩
    simp only [lexEscape, Cursor.next?, hp, hmod]
    rw [if_pos (Or.inl (by omega : v < 55296))]

/-- Counterexample to claim C6 as stated: the claim quantifies over every
`\x` (or bare `\u`) escape whose read characters are not valid hexadecimal
digits and asserts the value 0.  But Rust's `from_str_radix` accepts an
optional leading `+` sign, so `'\x+A'` — whose two read characters `+A` are
not two hex digits — decodes to 0x0A (10), not 0, and `'\u+00F'` decodes to
code unit 15, not 0. -/
theorem claim6_counterexample_plus_sign :
    (StringLiteral.lex .singleQuote ⟨1, 1⟩
      ⟨['\\', 'x', '+', 'A', '\''], ⟨1, 2⟩⟩).contents? = some [10] ∧
    (StringLiteral.lex .singleQuote ⟨1, 1⟩
      ⟨['\\', 'x', '+', 'A', '\''], ⟨1, 2⟩⟩).contents? ≠ some [0] ∧
    (StringLiteral.lex .singleQuote ⟨1, 1⟩
      ⟨['\\', 'u', '+', '0', '0', 'F', '\''], ⟨1, 2⟩⟩).contents? = some [15] ∧
    (StringLiteral.lex .singleQuote ⟨1, 1⟩
      ⟨['\\', 'u', '+', '0', '0', 'F', '\''], ⟨1, 2⟩⟩).contents? ≠ some [0] :=
  ⟨by decide, by decide, by decide, by decide⟩

/-- Claim C6 as amended: inputs rejected by `from_str_radix` (empty digit
run, any non-digit where a digit is expected) are silently coerced to 0, in
both the bare `\u` form and the `\x` form; but `from_str_radix` accepts an
optional leading `+` sign, so `+A` parses to 10 and `+00F` to 15 rather than
being coerced to 0. -/
theorem claim6_amended_coercion :
    (∀ (c1 c2 c3 c4 : Char), fromStrRadix16? 16 [c1, c2, c3, c4] = none →
      bareUnit c1 c2 c3 c4 = 0) ∧
    (∀ (fuel : Nat) (st : Position) (c1 c2 : Char) (rest : List Char) (p : Position),
      fromStrRadix16? 64 [c1, c2] = none →
      (lexEscape fuel st 'x' ⟨c1 :: c2 :: rest, p⟩).mapVal Prod.fst = .ok 0) ∧
    fromStrRadix16? 64 ['+', 'A'] = some 10 ∧
    fromStrRadix16? 16 ['+', '0', '0', 'F'] = some 15 := by
  refine ⟨?_, ?_, by decide, by decide⟩
  · intro c1 c2 c3 c4 h
    simp [bareUnit, h]
  · intro fuel st c1 c2 rest p h
    simp [lexEscape, Cursor.next?, h, Res.mapVal]

/-- Witness for claim C6 (amended): the coercion component applied at the
concrete non-hex characters `ZZZZ`. -/
theorem claim6_amended_coercion_witness :
    bareUnit 'Z' 'Z' 'Z' 'Z' = 0 :=
  claim6_amended_coercion.1 'Z' 'Z' 'Z' 'Z' (by decide)

/-- Counterexample to claim C3 as stated: the claim asserts that after a code
unit, a `\` followed by a non-`u` character leaves both in the stream, so
that `'A\n'` would decode as U+0041 followed by the escape `\n`
(scalars 65, 10).  In the code, `next_is('\\')` consumes the backslash before
`next_is('u')` fails, so the backslash is dropped and `n` is treated as an
ordinary character: the decoded content is 65, 110 ("An"), not 65, 10. -/
theorem claim3_counterexample_backslash_consumed :
    (StringLiteral.lex .singleQuote ⟨1, 1⟩
      ⟨['\\', 'u', '0', '0', '4', '1', '\\', 'n', '\''], ⟨1, 2⟩⟩).contents? = some [65, 110] ∧
    (StringLiteral.lex .singleQuote ⟨1, 1⟩
      ⟨['\\', 'u', '0', '0', '4', '1', '\\', 'n', '\''], ⟨1, 2⟩⟩).contents? ≠ some [65, 10] :=
  ⟨by decide, by decide⟩

/-- Claim C3 as amended: accumulation stops at the first position where the
lookahead is not `\` followed by `u`, but a matching `\` is consumed by
`next_is` even when the following character is not `u`; the backslash is then
dropped from the stream, only the following character remains for the main
loop, and `'A\n'` decodes as U+0041 followed by a literal `n`. -/
theorem claim3_amended_backslash_dropped :
    (∀ (c : Char) (rest : List Char) (acc : List Nat) (fuel : Nat) (p : Position),
      c ≠ 'u' →
      ∃ p', collectUnits (fuel + 1) acc ⟨'0' :: '0' :: '4' :: '1' :: '\\' :: c :: rest, p⟩ =
        .ok (acc ++ [65], ⟨c :: rest, p'⟩)) ∧
    (StringLiteral.lex .singleQuote ⟨1, 1⟩
      ⟨['\\', 'u', '0', '0', '4', '1', '\\', 'n', '\''], ⟨1, 2⟩⟩).contents? = some [65, 110] := by
  refine ⟨?_, by decide⟩
  intro c rest acc fuel p hc
  refine ⟨⟨p.line, p.column + 5⟩, ?_⟩
  have hb : bareUnit '0' '0' '4' '1' = 65 := by decide
  simp [collectUnits, Cursor.fillBytes4, Cursor.nextIs, Position.advance, hb, hc,
    Position.mk.injEq]

/-- Witness for claim C3 (amended): the backslash-dropping component applied
at the concrete escapee `n`. -/
theorem claim3_amended_backslash_dropped_witness :
    ∃ p', collectUnits 1 [] ⟨['0', '0', '4', '1', '\\', 'n', '\''], ⟨1, 4⟩⟩ =
      .ok ([65], ⟨['n', '\''], p'⟩) :=
  claim3_amended_backslash_dropped.1 'n' ['\''] [] 0 ⟨1, 4⟩ (by decide)

/-- `take_until` on an input holding its terminator returns exactly the run
before the terminator and leaves the stream right after it. -/
theorem takeUntilAux_append {t : Char} : ∀ (run rest : List Char) (p : Position),
    t ∉ run →
    ∃ p', takeUntilAux t (run ++ t :: rest) p = some (run, ⟨rest, p'⟩) := by
  intro run
  induction run with
  | nil =>
    intro rest p _
    exact ⟨Position.advance p t, by simp [takeUntilAux]⟩
  | cons c run ih =>
    intro rest p h
    have hc : c ≠ t := fun hh => h (hh ▸ List.mem_cons_self c run)
    obtain ⟨p', hp⟩ := ih rest (Position.advance p c) (fun hm => h (List.mem_cons_of_mem c hm))
    exact ⟨p', by simp [takeUntilAux, hc, hp]⟩

/-- Counterexample to claim C5 as stated: the out-of-range error message is
not the quoted "Unicode codepoint must not be greater than 0x10FFFF" but that
text followed by " in escape sequence" (and, the error value being built by
`Error::syntax(message)`, it carries no position); moreover a delimited run
that IS valid hexadecimal but does not fit in a `u32`, such as
`\u{FFFFFFFFF}`, is reported as "malformed Unicode character escape
sequence" even though its value exceeds 0x10FFFF. -/
theorem claim5_counterexample_messages :
    StringLiteral.lex .singleQuote ⟨1, 1⟩
      ⟨['\\', 'u', '{', '1', '1', '0', '0', '0', '0', '}', '\''], ⟨1, 2⟩⟩ =
      .err (.synErr "Unicode codepoint must not be greater than 0x10FFFF in escape sequence") ∧
    "Unicode codepoint must not be greater than 0x10FFFF in escape sequence" ≠
      "Unicode codepoint must not be greater than 0x10FFFF" ∧
    StringLiteral.lex .singleQuote ⟨1, 1⟩
      ⟨['\\', 'u', '{', 'F', 'F', 'F', 'F', 'F', 'F', 'F', 'F', 'F', '}', '\''], ⟨1, 2⟩⟩ =
      .err (.synErr "malformed Unicode character escape sequence") :=
  ⟨by decide, by decide, by decide⟩

/-- Claim C5 as amended: for the `\u{...}` form, a delimited run the `u32`
base-16 parse rejects (not valid hex, empty, or overflowing 32 bits) fails
with SyntaxError "malformed Unicode character escape sequence"; a parsed
value above 0x10FFFF fails with SyntaxError "Unicode codepoint must not be
greater than 0x10FFFF in escape sequence"; a value at most 0x10FFFF in the
surrogate range fails with SyntaxError "invalid Unicode escape sequence";
otherwise the parsed scalar is the escape's value.  These SyntaxErrors carry
only their message, no position.  Concretely, `'\u{1F600}'` decodes to the
single scalar U+1F600. -/
theorem claim5_amended_braced_form :
    (∀ (fuel : Nat) (st : Position) (run rest : List Char) (p : Position),
      '}' ∉ run →
      (lexEscape fuel st 'u' ⟨'{' :: (run ++ '}' :: rest), p⟩).mapVal Prod.fst =
        match fromStrRadix16? 32 run with
        | none => .err (.synErr "malformed Unicode character escape sequence")
        | some v =>
          if v > 1114111 then
            .err (.synErr
              "Unicode codepoint must not be greater than 0x10FFFF in escape sequence")
          else if 55296 ≤ v ∧ v ≤ 57343 then
            .err (.synErr "invalid Unicode escape sequence")
          else .ok v) ∧
    (StringLiteral.lex .singleQuote ⟨1, 1⟩
      ⟨['\\', 'u', '{', '1', 'F', '6', '0', '0', '}', '\''], ⟨1, 2⟩⟩).contents? =
      some [128512] := by
  refine ⟨?_, by decide⟩
  intro fuel st run rest p h
  obtain ⟨p', hp⟩ := takeUntilAux_append run rest (Position.advance p '{') h
  have hcur : (Cursor.nextIs ⟨'{' :: (run ++ '}' :: rest), p⟩ '{') =
      (true, ⟨run ++ '}' :: rest, p.advance '{'⟩) := by
    simp [Cursor.nextIs]
  simp only [lexEscape, hcur, Cursor.takeUntil, hp]
  cases hv : fromStrRadix16? 32 run with
  | none => simp [hv, Res.mapVal]
  | some v =>
    by_cases h1 : v > 1114111
    · simp [hv, h1, Res.mapVal]
    · by_cases h2 : 55296 ≤ v ∧ v ≤ 57343
      · simp [hv, h1, h2, Res.mapVal]
      · simp [hv, h1, h2, Res.mapVal]

/-- Witness for claim C5 (amended): the braced-form component applied at the
concrete run `110000`. -/
theorem claim5_amended_braced_form_witness :
    ('}' ∉ ['1', '1', '0', '0', '0', '0']) ∧
    (lexEscape 0 ⟨1, 2⟩ 'u'
        ⟨'{' :: (['1', '1', '0', '0', '0', '0'] ++ '}' :: ['\'']), ⟨1, 4⟩⟩).mapVal Prod.fst =
      .err (.synErr
        "Unicode codepoint must not be greater than 0x10FFFF in escape sequence") :=
  ⟨by decide, by
    rw [claim5_amended_braced_form.1 0 ⟨1, 2⟩ ['1', '1', '0', '0', '0', '0'] ['\''] ⟨1, 4⟩
      (by decide)]
    decide⟩

/-- Rendering a nibble and reading it back as a hex digit is the identity. -/
theorem hexDigit?_toHexDigit {k : Nat} (h : k < 16) : hexDigit? (toHexDigit k) = some k := by
  interval_cases k <;> decide

/-- A rendered hex digit is never the plus sign. -/
theorem toHexDigit_ne_plus {k : Nat} (h : k < 16) : toHexDigit k ≠ '+' := by
  interval_cases k <;> decide

/-- A rendered hex digit is never an opening brace. -/
theorem toHexDigit_ne_lbrace {k : Nat} (h : k < 16) : toHexDigit k ≠ '{' := by
  interval_cases k <;> decide

/-- A rendered hex digit is never a line feed. -/
theorem toHexDigit_ne_newline {k : Nat} (h : k < 16) : toHexDigit k ≠ '\n' := by
  interval_cases k <;> decide

/-- A rendered hex digit is a single-byte ASCII character. -/
theorem toHexDigit_ascii {k : Nat} (h : k < 16) : (toHexDigit k).toNat < 128 := by
  interval_cases k <;> decide

/-- Parsing the 4-digit rendering of a 16-bit value recovers the value. -/
theorem fromStrRadix16?_toHex4 {n : Nat} (h : n < 65536) :
    fromStrRadix16? 16 (toHex4 n) = some n := by
  have h1 : n / 4096 % 16 < 16 := Nat.mod_lt _ (by norm_num)
  have h2 : n / 256 % 16 < 16 := Nat.mod_lt _ (by norm_num)
  have h3 : n / 16 % 16 < 16 := Nat.mod_lt _ (by norm_num)
  have h4 : n % 16 < 16 := Nat.mod_lt _ (by norm_num)
  have hp16 : (2 : Nat) ^ 16 = 65536 := by norm_num
  have hs : stripPlus [toHexDigit (n / 4096 % 16), toHexDigit (n / 256 % 16),
      toHexDigit (n / 16 % 16), toHexDigit (n % 16)] =
      [toHexDigit (n / 4096 % 16), toHexDigit (n / 256 % 16),
       toHexDigit (n / 16 % 16), toHexDigit (n % 16)] := by
    simp [stripPlus, toHexDigit_ne_plus h1]
  simp only [fromStrRadix16?, toHex4, hs, List.isEmpty_cons, hexFold,
    hexDigit?_toHexDigit h1, hexDigit?_toHexDigit h2, hexDigit?_toHexDigit h3,
    hexDigit?_toHexDigit h4, hp16, Bool.false_eq_true, if_false]
  rw [if_pos (by omega)]
  simp only [Option.some.injEq]
  omega

/-- A bare escape group rendering a 16-bit value decodes to that value. -/
theorem bareUnit_toHex4 {n : Nat} (h : n < 65536) :
    bareUnit (toHexDigit (n / 4096 % 16)) (toHexDigit (n / 256 % 16))
      (toHexDigit (n / 16 % 16)) (toHexDigit (n % 16)) = n := by
  have hfr := fromStrRadix16?_toHex4 h
  unfold toHex4 at hfr
  unfold bareUnit
  rw [hfr]

/-- UTF-16 decoding of a high/low surrogate pair yields the combined
supplementary-plane scalar. -/
theorem decodeUtf16First_pair {hi lo : Nat} (h1 : 55296 ≤ hi) (h2 : hi < 56320)
    (h3 : 56320 ≤ lo) (h4 : lo < 57344) :
    decodeUtf16First [hi, lo] =
      some (.ok (65536 + (hi - 55296) * 1024 + (lo - 56320))) := by
  have hA : ¬(hi < 55296 ∨ 57344 ≤ hi) := by omega
  have hB : hi < 56320 := h2
  have hC : 56320 ≤ lo ∧ lo < 57344 := ⟨h3, h4⟩
  simp [decodeUtf16First, hA, hB, hC]

/-- The bare-escape accumulation loop on the rendering of a surrogate pair
collects exactly the two code units and stops before the closing quote. -/
theorem collectUnits_pair {hi lo : Nat} (hhi1 : 55296 ≤ hi) (hhi2 : hi < 56320)
    (hlo1 : 56320 ≤ lo) (hlo2 : lo < 57344) (fuel : Nat) (acc : List Nat)
    (r : List Char) (p : Position) :
    ∃ p', collectUnits (fuel + 2) acc
      ⟨toHex4 hi ++ '\\' :: 'u' :: (toHex4 lo ++ '\'' :: r), p⟩ =
      .ok (acc ++ [hi, lo], ⟨'\'' :: r, p'⟩) := by
  have hhi : hi < 65536 := by omega
  have hlo : lo < 65536 := by omega
  have b1 : hi / 4096 % 16 < 16 := Nat.mod_lt _ (by norm_num)
  have b2 : hi / 256 % 16 < 16 := Nat.mod_lt _ (by norm_num)
  have b3 : hi / 16 % 16 < 16 := Nat.mod_lt _ (by norm_num)
  have b4 : hi % 16 < 16 := Nat.mod_lt _ (by norm_num)
  have b5 : lo / 4096 % 16 < 16 := Nat.mod_lt _ (by norm_num)
  have b6 : lo / 256 % 16 < 16 := Nat.mod_lt _ (by norm_num)
  have b7 : lo / 16 % 16 < 16 := Nat.mod_lt _ (by norm_num)
  have b8 : lo % 16 < 16 := Nat.mod_lt _ (by norm_num)
  refine ⟨⟨p.line, p.column + 10⟩, ?_⟩
  simp [collectUnits, Cursor.fillBytes4, Cursor.nextIs, Position.advance, toHex4,
    bareUnit_toHex4 hhi, bareUnit_toHex4 hlo,
    toHexDigit_ascii b1, toHexDigit_ascii b2, toHexDigit_ascii b3, toHexDigit_ascii b4,
    toHexDigit_ascii b5, toHexDigit_ascii b6, toHexDigit_ascii b7, toHexDigit_ascii b8,
    toHexDigit_ne_newline b1, toHexDigit_ne_newline b2, toHexDigit_ne_newline b3,
    toHexDigit_ne_newline b4, toHexDigit_ne_newline b5, toHexDigit_ne_newline b6,
    toHexDigit_ne_newline b7, toHexDigit_ne_newline b8,
    Position.mk.injEq, List.append_assoc]

/-- The bare `\u` escape on the rendering of a surrogate pair decodes to the
combined supplementary-plane scalar. -/
theorem lexEscape_u_pair {hi lo : Nat} (hhi1 : 55296 ≤ hi) (hhi2 : hi < 56320)
    (hlo1 : 56320 ≤ lo) (hlo2 : lo < 57344) (fuel : Nat) (st : Position)
    (r : List Char) (p : Position) :
    ∃ p', lexEscape (fuel + 2) st 'u'
      ⟨toHex4 hi ++ '\\' :: 'u' :: (toHex4 lo ++ '\'' :: r), p⟩ =
      .ok (65536 + (hi - 55296) * 1024 + (lo - 56320), ⟨'\'' :: r, p'⟩) := by
  have b1 : hi / 4096 % 16 < 16 := Nat.mod_lt _ (by norm_num)
  obtain ⟨p', hcu⟩ := collectUnits_pair hhi1 hhi2 hlo1 hlo2 fuel [] r p
  refine ⟨p', ?_⟩
  have hne : Cursor.nextIs ⟨toHex4 hi ++ '\\' :: 'u' :: (toHex4 lo ++ '\'' :: r), p⟩ '{' =
      (false, ⟨toHex4 hi ++ '\\' :: 'u' :: (toHex4 lo ++ '\'' :: r), p⟩) := by
    simp [Cursor.nextIs, toHex4, toHexDigit_ne_lbrace b1]
  simp only [lexEscape, hne, hcu, List.nil_append,
    decodeUtf16First_pair hhi1 hhi2 hlo1 hlo2]

/-- One scanning step on `\u...`: enter the Unicode branch of the escape
decoder. -/
theorem lexLoop_backslash_u (fuel : Nat) (term : StringTerminator) (buf : List Nat)
    (tail : List Char) (p : Position) :
    lexLoop (fuel + 1) term buf ⟨'\\' :: 'u' :: tail, p⟩ =
      match lexEscape fuel p 'u' ⟨tail, ⟨p.line, p.column + 2⟩⟩ with
      | .ok (v, cur3) => lexLoop fuel term (buf ++ [v]) cur3
      | .err e => .err e
      | .panic m => .panic m
      | .outOfFuel => .outOfFuel := rfl

/-- One scanning step on the single-quote terminator: stop with the buffer
collected so far. -/
theorem lexLoop_term_stop (fuel : Nat) (buf : List Nat) (r : List Char) (p : Position) :
    lexLoop (fuel + 1) .singleQuote buf ⟨'\'' :: r, p⟩ =
      .ok (buf, ⟨r, ⟨p.line, p.column + 1⟩⟩) := rfl

/-- The decoded content of `lex` is the buffer produced by the scanning
loop. -/
theorem lex_contents_of_loop {term : StringTerminator} {sp : Position} {cur : Cursor}
    {buf : List Nat} {cur' : Cursor}
    (h : lexLoop (cur.inp.length + 1) term [] cur = .ok (buf, cur')) :
    (StringLiteral.lex term sp cur).contents? = some buf := by
  unfold StringLiteral.lex
  rw [h]
  rfl

/-- The scanning loop on `\uHHHH\uHHHH` rendering a surrogate pair appends
exactly the combined scalar. -/
theorem lexLoop_pair {hi lo : Nat} (hhi1 : 55296 ≤ hi) (hhi2 : hi < 56320)
    (hlo1 : 56320 ≤ lo) (hlo2 : lo < 57344) (fuel : Nat) (buf : List Nat)
    (r : List Char) (p : Position) :
    ∃ p', lexLoop (fuel + 3) .singleQuote buf
      ⟨'\\' :: 'u' :: (toHex4 hi ++ '\\' :: 'u' :: (toHex4 lo ++ '\'' :: r)), p⟩ =
      .ok (buf ++ [65536 + (hi - 55296) * 1024 + (lo - 56320)], ⟨r, p'⟩) := by
  obtain ⟨p', hesc⟩ := lexEscape_u_pair hhi1 hhi2 hlo1 hlo2 fuel p r
    ⟨p.line, p.column + 2⟩
  refine ⟨⟨p'.line, p'.column + 1⟩, ?_⟩
  rw [show fuel + 3 = (fuel + 2) + 1 from rfl,
    lexLoop_backslash_u (fuel + 2) .singleQuote buf
      (toHex4 hi ++ '\\' :: 'u' :: (toHex4 lo ++ '\'' :: r)) p, hesc]
  exact lexLoop_term_stop (fuel + 1) (buf ++ [65536 + (hi - 55296) * 1024 + (lo - 56320)]) r p'

/-- Claim C4: for every supplementary-plane scalar (0x10000 to 0x10FFFF),
re-expressing it as its UTF-16 high/low surrogate pair, rendering both as
4-digit bare `\u` escapes and lexing reconstructs exactly the original
scalar in the output buffer; concretely `\uD83D\uDE00` decodes to the same
single scalar U+1F600 as `\u{1F600}`. -/
theorem claim4_surrogate_pair_roundtrip :
    (∀ (c : Nat), 65536 ≤ c → c ≤ 1114111 →
      (StringLiteral.lex .singleQuote ⟨1, 1⟩
        ⟨'\\' :: 'u' :: (toHex4 (55296 + (c - 65536) / 1024) ++
          '\\' :: 'u' :: (toHex4 (56320 + (c - 65536) % 1024) ++ ['\''])), ⟨1, 2⟩⟩).contents? =
        some [c]) ∧
    (StringLiteral.lex .singleQuote ⟨1, 1⟩
      ⟨['\\', 'u', 'D', '8', '3', 'D', '\\', 'u', 'D', 'E', '0', '0', '\''], ⟨1, 2⟩⟩).contents? =
      some [128512] ∧
    (StringLiteral.lex .singleQuote ⟨1, 1⟩
      ⟨['\\', 'u', '{', '1', 'F', '6', '0', '0', '}', '\''], ⟨1, 2⟩⟩).contents? =
      some [128512] := by
  refine ⟨?_, by decide, by decide⟩
  intro c hc1 hc2
  set hi := 55296 + (c - 65536) / 1024 with hhidef
  set lo := 56320 + (c - 65536) % 1024 with hlodef
  have hq : (c - 65536) / 1024 < 1024 := by omega
  have hr : (c - 65536) % 1024 < 1024 := Nat.mod_lt _ (by norm_num)
  have hhi1 : 55296 ≤ hi := by omega
  have hhi2 : hi < 56320 := by omega
  have hlo1 : 56320 ≤ lo := by omega
  have hlo2 : lo < 57344 := by omega
  have hscalar : 65536 + (hi - 55296) * 1024 + (lo - 56320) = c := by omega
  obtain ⟨p', hloop⟩ := lexLoop_pair hhi1 hhi2 hlo1 hlo2 11 [] [] ⟨1, 2⟩
  rw [hscalar] at hloop
  refine @lex_contents_of_loop _ _ _ _ ⟨[], p'⟩ ?_
  rw [show (Cursor.mk ('\\' :: 'u' :: (toHex4 hi ++ '\\' :: 'u' :: (toHex4 lo ++ ['\''])))
      ⟨1, 2⟩).inp.length + 1 = 11 + 3 from by simp [toHex4]]
  exact hloop

/-- Witness for claim C4: the round-trip component applied at the concrete
scalar U+1F600 (whose surrogate pair is D83D/DE00). -/
theorem claim4_surrogate_pair_roundtrip_witness :
    (65536 ≤ 128512) ∧ (128512 ≤ 1114111) ∧
    (StringLiteral.lex .singleQuote ⟨1, 1⟩
      ⟨'\\' :: 'u' :: (toHex4 (55296 + (128512 - 65536) / 1024) ++
        '\\' :: 'u' :: (toHex4 (56320 + (128512 - 65536) % 1024) ++ ['\''])), ⟨1, 2⟩⟩).contents? =
      some [128512] :=
  ⟨by norm_num, by norm_num,
    claim4_surrogate_pair_roundtrip.1 128512 (by norm_num) (by norm_num)⟩

end Boa
